import Mathlib

/-
  Shallow embedding of the dyn package (jsouthworth.net/go/dyn): late-binding
  helpers for Go built on reflection.  Dynamic Go values of first-order shape
  are modelled by `Val`; values carrying behavior (Go functions, named types
  with methods / capability interfaces) are modelled by `DVal`.  Go panics are
  modelled as the error side of `Except GoPanic`.
-/

namespace Dyn

/-- Go reflect kinds relevant to the package (reflect.Kind). -/
inductive GoKind where
  | int
  | bool
  | str
  | map
  | slice
  | struct
  | ptr
  | func
  | chan
  | iface
  deriving DecidableEq, Repr

/-- First-order dynamic Go values (the contents of an `interface\x7b\x7d`):
scalars, slices, maps, structs, pointers, and the package's `Tuple` type
(a named slice type used to package multiple return values). `nil` is the
nil interface value. -/
inductive Val where
  | nil
  | int (n : Int)
  | str (s : String)
  | bool (b : Bool)
  | slice (xs : List Val)
  | tuple (xs : List Val)
  | map (kvs : List (Val × Val))
  | struct (fields : List (String × Val))
  | ptr (v : Val)
  deriving Repr

/-- The reflect.Kind of a dynamic value; `none` for the nil interface value
(whose reflect.Value is invalid).  The package's `Tuple` is a named slice
type, so its kind is `slice`. -/
def Val.kind : Val → Option GoKind
  | .nil => none
  | .int _ => some .int
  | .str _ => some .str
  | .bool _ => some .bool
  | .slice _ => some .slice
  | .tuple _ => some .slice
  | .map _ => some .map
  | .struct _ => some .struct
  | .ptr _ => some .ptr

mutual

/-- Structural equality of first-order dynamic values, modelling Go's `==`
on comparable values (callers guard comparability first; Go pointers compare
by identity, which a structural model cannot express — no claim compares
pointers). -/
def eqVal : Val → Val → Bool
  | .nil, .nil => true
  | .int a, .int b => a == b
  | .str a, .str b => a == b
  | .bool a, .bool b => a == b
  | .slice xs, .slice ys => eqValList xs ys
  | .tuple xs, .tuple ys => eqValList xs ys
  | .map kvs, .map kvs' => eqValPairs kvs kvs'
  | .struct fs, .struct fs' => eqValFields fs fs'
  | .ptr a, .ptr b => eqVal a b
  | _, _ => false
  termination_by structural a => a

/-- Elementwise `eqVal` on lists of values. -/
def eqValList : List Val → List Val → Bool
  | [], [] => true
  | x :: xs, y :: ys => eqVal x y && eqValList xs ys
  | _, _ => false
  termination_by structural a => a

/-- Elementwise `eqVal` on key-value pair lists. -/
def eqValPairs : List (Val × Val) → List (Val × Val) → Bool
  | [], [] => true
  | (k, v) :: kvs, (k', v') :: kvs' => eqVal k k' && eqVal v v' && eqValPairs kvs kvs'
  | _, _ => false
  termination_by structural a => a

/-- Elementwise `eqVal` on named-field lists. -/
def eqValFields : List (String × Val) → List (String × Val) → Bool
  | [], [] => true
  | (n, v) :: fs, (n', v') :: fs' => n == n' && eqVal v v' && eqValFields fs fs'
  | _, _ => false
  termination_by structural a => a

end

mutual

/-- Comparability of a value's dynamic type (reflect.Type.Comparable):
slices, maps and funcs are not comparable; a struct type is comparable iff
all its field types are.  (Type-level comparability is approximated
structurally from the value; no claim exercises the difference.) -/
def Val.comparable : Val → Bool
  | .nil => true
  | .int _ => true
  | .str _ => true
  | .bool _ => true
  | .slice _ => false
  | .tuple _ => false
  | .map _ => false
  | .struct fs => fieldsComparable fs
  | .ptr _ => true
  termination_by structural a => a

/-- Comparability of every field of a struct. -/
def fieldsComparable : List (String × Val) → Bool
  | [] => true
  | (_, v) :: fs => v.comparable && fieldsComparable fs
  termination_by structural a => a

end

/-- Go panics that the package's code paths can raise, modelled as error
values.  `doesNotUnderstand` is the package's own ErrDoesNotUnderstand
(carrying the receiver and full message); the rest are runtime/reflect
panics identified by site. -/
inductive GoPanicV where
  | invalidValue      -- reflect operation on the invalid (zero) Value
  | indexOutOfRange   -- args[0] / message[0] on an empty list
  | badTypeAssert     -- failed type assertion (selector.(int), message[0].(string), one.(uint) ...)
  | structSelector    -- "structs can only be referenced by index or name"
  | findNonAssoc      -- "Find passed a non associative type"
  | inNonFunc         -- reflect.Type.In on a non-func type
  | inOutOfRange      -- reflect.Type.In with index out of range
  | zeroValueArg      -- reflect.Value.Call using zero Value argument
  | badArgCount       -- reflect.Value.Call with wrong number of arguments
  | callNonFunc       -- reflect.Value.Call on a non-func Value
  | notComparer       -- one.(Comparer) assertion failure in Compare
  | eqNonComparable   -- == on operands of a non-comparable dynamic type
  deriving Repr

/-- `findReflect` (dyn.go): reflection-based associative lookup on a native
Go value.  Structs accept an int (field position; out of range is
not-found) or a string (field name; absent is not-found) selector, any
other selector kind panics.  Maps look the key up (a nil or non-comparable
key makes reflect's MapIndex panic).  Slices — including the package's
`Tuple` — require an int selector (a non-int selector fails the
`selector.(int)` assertion) and report out-of-range as not-found.
Pointers are dereferenced (`objv.Elem()`) and the lookup recurses; any
other kind — including the invalid value obtained by dereferencing a nil
pointer — panics with the non-associative-type error. -/
def findReflect : Val → Val → Except GoPanicV (Val × Bool)
  | .struct fs, .int s =>
      if s < 0 ∨ (fs.length : Int) ≤ s then .ok (.nil, false)
      else .ok ((fs.getD s.toNat ("", .nil)).2, true)
  | .struct fs, .str name =>
      match fs.find? (fun f => f.1 == name) with
      | some f => .ok (f.2, true)
      | none => .ok (.nil, false)
  | .struct _, _ => .error .structSelector
  | .map _, .nil => .error .invalidValue
  | .map kvs, sel =>
      if sel.comparable then
        match kvs.find? (fun kv => eqVal kv.1 sel) with
        | some kv => .ok (kv.2, true)
        | none => .ok (.nil, false)
      else .error .invalidValue
  | .slice xs, .int idx =>
      if idx < 0 ∨ (xs.length : Int) ≤ idx then .ok (.nil, false)
      else .ok (xs.getD idx.toNat .nil, true)
  | .slice _, _ => .error .badTypeAssert
  | .tuple xs, .int idx =>
      if idx < 0 ∨ (xs.length : Int) ≤ idx then .ok (.nil, false)
      else .ok (xs.getD idx.toNat .nil, true)
  | .tuple _, _ => .error .badTypeAssert
  | .ptr v, sel => findReflect v sel
  | _, _ => .error .findNonAssoc

mutual

/-- A dynamic Go value as seen by the package's entry points: a first-order
value (`base`), a Go function value (`fn`), or a value of a user-defined
named type (`obj`) that may implement the package's capability interfaces
(Applier, Finder, MessageReceiver, Equaler, Comparer) and carry named Go
methods.  By convention an `Obj`'s `methods` list enumerates the full Go
method set of its type (including its capability-interface methods, when a
modelled type has them). -/
inductive DVal where
  | base (v : Val)
  | fn (f : Func)
  | obj (o : Obj)

/-- A Go function value: the reflect kinds of its formal parameters and its
behavior.  The behavior returns the list of return values, or a panic
raised inside the call.  (Argument values outside the parameter types
would make reflect's Call panic; bodies in this development are total over
`Val`, matching the calls the claims exercise.) -/
inductive Func where
  | mk (params : List GoKind) (body : List Val → Except GoPanic (List Val))

/-- A value of a user-defined named type: its underlying first-order value
(which fixes its reflect kind and comparability), its optional
capability-interface implementations, and its named Go methods.  Dynamic
values passed into a capability implementation are seen through their
first-order content (`DVal.asArg`). -/
inductive Obj where
  | mk (payload : Val)
       (applier : Option (List Val → Val))
       (finder : Option (Val → Val × Bool))
       (receiver : Option (List Val → Val))
       (equaler : Option (Val → Bool))
       (comparer : Option (Val → Int))
       (methods : List (String × Func))

/-- A Go panic as surfaced by the package: either a low-level reflect /
runtime panic, or the package's own DoesNotUnderstand error carrying the
receiver and the full message. -/
inductive GoPanic where
  | v (p : GoPanicV)
  | doesNotUnderstand (rcvr : DVal) (message : List Val)

end

/-- Results of operations that can panic. -/
abbrev Res (α : Type) : Type := Except GoPanic α

/-- Lift a low-level reflect panic into the full panic type. -/
def liftE {α : Type} : Except GoPanicV α → Res α
  | .ok a => .ok a
  | .error e => .error (.v e)

def Func.params : Func → List GoKind
  | .mk ps _ => ps

def Func.body : Func → List Val → Res (List Val)
  | .mk _ b => b

def Obj.payload : Obj → Val
  | .mk p _ _ _ _ _ _ => p

def Obj.methods : Obj → List (String × Func)
  | .mk _ _ _ _ _ _ ms => ms

/-- The Applier implementation of a value, when its type has one
(`f.(Applier)`). -/
def isApplier : DVal → Option (List Val → Val)
  | .obj (.mk _ ap _ _ _ _ _) => ap
  | _ => none

/-- The Finder implementation of a value, when its type has one
(`assocObj.(Finder)`). -/
def isFinder : DVal → Option (Val → Val × Bool)
  | .obj (.mk _ _ fi _ _ _ _) => fi
  | _ => none

/-- The MessageReceiver implementation of a value, when its type has one
(`rcvr.(MessageReceiver)`). -/
def isReceiver : DVal → Option (List Val → Val)
  | .obj (.mk _ _ _ re _ _ _) => re
  | _ => none

/-- The Equaler implementation of a value, when its type has one
(`one.(Equaler)`). -/
def isEqualer : DVal → Option (Val → Bool)
  | .obj (.mk _ _ _ _ eq _ _) => eq
  | _ => none

/-- The Comparer implementation of a value, when its type has one
(`one.(Comparer)`). -/
def isComparer : DVal → Option (Val → Int)
  | .obj (.mk _ _ _ _ _ co _) => co
  | _ => none

/-- Whether the value is the nil interface value. -/
def isNilD : DVal → Bool
  | .base .nil => true
  | _ => false

/-- The reflect kind of a dynamic value (`reflect.ValueOf(x).Kind()`):
`none` for the nil interface (invalid Value); a named type has the kind of
its underlying value; function values have kind func. -/
def kindD : DVal → Option GoKind
  | .base v => v.kind
  | .obj o => o.payload.kind
  | .fn _ => some .func

/-- Comparability (`reflect.TypeOf(x).Comparable()`) of a dynamic value's
type; func types are never comparable. -/
def goComparableD : DVal → Bool
  | .base v => v.comparable
  | .obj o => o.payload.comparable
  | .fn _ => false

/-- The first-order content a user-supplied capability implementation sees
when handed a dynamic value (a named type is seen through its underlying
value; function values have no first-order content in this model and no
claim passes one to an override). -/
def DVal.asArg : DVal → Val
  | .base v => v
  | .obj o => o.payload
  | .fn _ => .nil

/-- `MethodByName` on the receiver's value: named types expose their
declared methods, other values have none.  (A nil receiver is handled at
the call site: reflect's MethodByName panics on the invalid Value.) -/
def methodByName : DVal → String → Option Func
  | .obj o, name => (o.methods.find? (fun m => m.1 == name)).map (fun m => m.2)
  | _, _ => none

/-- `findReflect` applied to `reflect.ValueOf(assocObj)`: a named type is
inspected through its underlying value; function values (kind func) hit the
non-associative default case, as does the invalid value of a nil
interface. -/
def findReflectD : DVal → Val → Res (Val × Bool)
  | .base v, sel => liftE (findReflect v sel)
  | .obj o, sel => liftE (findReflect o.payload sel)
  | .fn _, _ => .error (.v .findNonAssoc)

/-- `Find` (dyn.go): delegate to a Finder implementation when the value has
one, otherwise perform the reflection-based lookup. -/
def Find (assocObj : DVal) (selector : Val) : Res (Val × Bool) :=
  match isFinder assocObj with
  | some fnd => .ok (fnd selector)
  | none => findReflectD assocObj selector

/-- `At` (dyn.go): `Find`, discarding the found flag. -/
def At (assocObj : DVal) (selector : Val) : Res Val :=
  match Find assocObj selector with
  | .ok out => .ok out.1
  | .error e => .error e

/-- Parameter kinds for which a nil argument is replaced by the parameter
type's zero value in `apply`'s adaptation loop (the reference-like kinds of
the source's switch). -/
def isRefKind : GoKind → Bool
  | .chan => true
  | .func => true
  | .iface => true
  | .map => true
  | .ptr => true
  | .slice => true
  | _ => false

/-- `reflect.Zero` of a parameter type, by kind: the nil map / nil slice
(empty for reads) or the nil value of the other reference-like kinds. -/
def zeroOfKind : GoKind → Val
  | .map => .map []
  | .slice => .slice []
  | _ => .nil

/-- `fnt.In(i)` on the type of the applied value: the i-th parameter kind
of a function type; out-of-range or a non-func type makes reflect panic. -/
def inKind (fnv : DVal) (i : Nat) : Res GoKind :=
  match fnv with
  | .fn f =>
      match (Func.params f).get? i with
      | some k => .ok k
      | none => .error (.v .inOutOfRange)
  | _ => .error (.v .inNonFunc)

/-- The argument-adaptation loop of `apply` (dyn.go), from position `i`:
a nil argument consults the formal parameter's kind and becomes the
parameter's zero value for reference-like kinds, or the invalid zero
reflect.Value (modelled as `none`) otherwise; a non-nil argument passes
through unchanged. -/
def adaptArgs (fnv : DVal) : Nat → List Val → Res (List (Option Val))
  | _, [] => .ok []
  | i, .nil :: rest =>
      match inKind fnv i with
      | .error e => .error e
      | .ok k =>
          match adaptArgs fnv (i + 1) rest with
          | .error e => .error e
          | .ok tail => .ok ((if isRefKind k then some (zeroOfKind k) else none) :: tail)
  | i, a :: rest =>
      match adaptArgs fnv (i + 1) rest with
      | .error e => .error e
      | .ok tail => .ok (some a :: tail)

/-- Collapse an adapted argument vector, failing on any invalid (zero)
reflect.Value entry. -/
def sequenceValid : List (Option Val) → Option (List Val)
  | [] => some []
  | some v :: rest =>
      match sequenceValid rest with
      | some vs => some (v :: vs)
      | none => none
  | none :: _ => none

/-- `fnv.Call(argvs)`: panics on a non-func value, then on an argument
count mismatch, then on any invalid argument value; otherwise runs the
function body on the argument values and yields its return values. -/
def call (fnv : DVal) (argvs : List (Option Val)) : Res (List Val) :=
  match fnv with
  | .fn f =>
      if argvs.length = (Func.params f).length then
        match sequenceValid argvs with
        | some vs => Func.body f vs
        | none => .error (.v .zeroValueArg)
      else .error (.v .badArgCount)
  | _ => .error (.v .callNonFunc)

/-- Result normalization of `apply` (dyn.go): zero return values yield nil,
one yields the value itself, two or more are packaged as a `Tuple`. -/
def normalize : List Val → Val
  | [] => .nil
  | [v] => v
  | vs => .tuple vs

/-- `apply` (dyn.go): `fnv.Type()` panics on the invalid value of a nil
interface; a value of map, slice or struct kind is treated as a lookup of
the first argument (found flag discarded); anything else goes through the
argument-adaptation loop, `Call`, and result normalization. -/
def applyR (fnv : DVal) (args : List Val) : Res Val :=
  if isNilD fnv then .error (.v .invalidValue)
  else
    match kindD fnv with
    | some .map | some .slice | some .struct =>
        (match args with
         | [] => .error (.v .indexOutOfRange)
         | a :: _ =>
             match findReflectD fnv a with
             | .ok out => .ok out.1
             | .error e => .error e)
    | _ =>
        match adaptArgs fnv 0 args with
        | .error e => .error e
        | .ok argvs =>
            match call fnv argvs with
            | .error e => .error e
            | .ok outs => .ok (normalize outs)

/-- `Apply` (dyn.go): delegate to an Applier implementation when the value
has one, otherwise `apply` via reflection. -/
def Apply (f : DVal) (args : List Val) : Res Val :=
  match isApplier f with
  | some a => .ok (a args)
  | none => applyR f args

/-- `Send` (dyn.go): delegate to a MessageReceiver implementation when the
receiver has one; otherwise take `message[0]` (panics when the message is
empty), assert it is a string (panics otherwise), look the method up by
name (reflect's MethodByName panics on the invalid value of a nil
receiver), and either apply the method to the rest of the message or panic
with DoesNotUnderstand carrying the receiver and the full message. -/
def Send (rcvr : DVal) (message : List Val) : Res Val :=
  match isReceiver rcvr with
  | some recv => .ok (recv message)
  | none =>
      match message with
      | [] => .error (.v .indexOutOfRange)
      | m0 :: rest =>
          match m0 with
          | .str name =>
              if isNilD rcvr then .error (.v .invalidValue)
              else
                match methodByName rcvr name with
                | some f => applyR (.fn f) rest
                | none => .error (.doesNotUnderstand rcvr (m0 :: rest))
          | _ => .error (.v .badTypeAssert)

/-- Go's native `==` on two interface values: nil equals only nil; values
of different kinds are unequal; values of the same kind compare
structurally when comparable and panic when not.  (Go distinguishes
dynamic types more finely than kinds — a named type never equals an
unnamed one — so two `obj`s compare through their payloads and an `obj`
never equals a `base`; func values panic as same-typed funcs would.  No
claim exercises the finer distinctions.) -/
def goEq : DVal → DVal → Res Bool
  | .base .nil, .base .nil => .ok true
  | .base .nil, _ => .ok false
  | _, .base .nil => .ok false
  | .base a, .base b =>
      if a.kind = b.kind then
        if a.comparable && b.comparable then .ok (eqVal a b)
        else .error (.v .eqNonComparable)
      else .ok false
  | .obj oa, .obj ob =>
      if oa.payload.kind = ob.payload.kind then
        if oa.payload.comparable && ob.payload.comparable then .ok (eqVal oa.payload ob.payload)
        else .error (.v .eqNonComparable)
      else .ok false
  | .fn _, .fn _ => .error (.v .eqNonComparable)
  | _, _ => .ok false

/-- `Equal` (dyn.go): an Equaler on the first operand wins, then one on the
second (called with the operands swapped), then Go's native `==`. -/
def Equal (one two : DVal) : Res Bool :=
  match isEqualer one with
  | some e => .ok (e two.asArg)
  | none =>
      match isEqualer two with
      | some e => .ok (e one.asArg)
      | none => goEq one two

/-- `EqualNonComparable` (dyn.go): when the first operand is not an
Equaler, a non-nil operand of a non-comparable type — either of them —
short-circuits to false; otherwise the value of `Equal`. -/
def EqualNonComparable (one two : DVal) : Res Bool :=
  match isEqualer one with
  | some _ => Equal one two
  | none =>
      if !isNilD one && !goComparableD one then .ok false
      else if !isNilD two && !goComparableD two then .ok false
      else Equal one two

/-- `Compare` (dyn.go): native equality first (a panic there propagates),
then nil is below everything, then a type switch over the natively ordered
kinds (only Go `int` and `string` are populated in the model's `Val`; the
other eleven numeric cases of the source are structurally identical), and
finally the `one.(Comparer)` assertion, which panics when the first
operand is not a Comparer. -/
def Compare (one two : DVal) : Res Int :=
  match goEq one two with
  | .error e => .error e
  | .ok true => .ok 0
  | .ok false =>
      if isNilD one then .ok (-1)
      else if isNilD two then .ok 1
      else
        match one with
        | .base (.int v1) =>
            match two with
            | .base (.int v2) => .ok (if v1 < v2 then -1 else if v2 < v1 then 1 else 0)
            | _ => .error (.v .badTypeAssert)
        | .base (.str v1) =>
            match two with
            | .base (.str v2) => .ok (if v1 < v2 then -1 else if v2 < v1 then 1 else 0)
            | _ => .error (.v .badTypeAssert)
        | _ =>
            match isComparer one with
            | some c => .ok (c two.asArg)
            | none => .error (.v .notComparer)

/-- `Compose` (dyn.go): zero functions yield the identity closure; otherwise
a closure that applies the composition of the tail to its argument, then
applies the head to the result — spreading it when it is a `Tuple`,
passing it as the single argument otherwise.  The returned closures are Go
functions of one interface parameter and one result. -/
def Compose : List DVal → DVal
  | [] => .fn (.mk [.iface] (fun args => .ok [args.headD .nil]))
  | f :: rest =>
      .fn (.mk [.iface] (fun args =>
        match Apply (Compose rest) [args.headD .nil] with
        | .error e => .error e
        | .ok newArg =>
            match newArg with
            | .tuple elems =>
                (match Apply f elems with
                 | .ok r => .ok [r]
                 | .error e => .error e)
            | v =>
                (match Apply f [v] with
                 | .ok r => .ok [r]
                 | .error e => .error e)))

/-! Helper lemmas shared by the claim theorems. -/

theorem findReflect_false_nil (v : Val) (sel w : Val)
    (h : findReflect v sel = .ok (w, false)) : w = Val.nil := by
  cases v with
  | ptr v' => exact findReflect_false_nil v' sel w h
  | nil => simp [findReflect] at h
  | int n => simp [findReflect] at h
  | str s => simp [findReflect] at h
  | bool b => simp [findReflect] at h
  | slice xs =>
      cases sel <;> simp [findReflect] at h
      split at h <;> simp_all
  | tuple xs =>
      cases sel <;> simp [findReflect] at h
      split at h <;> simp_all
  | map kvs =>
      cases sel <;> simp [findReflect] at h <;>
        (try split at h) <;> (try split at h) <;> simp_all
  | struct fs =>
      cases sel <;> simp [findReflect] at h <;>
        (try split at h) <;> simp_all

theorem adaptArgs_nil_cons (fnv : DVal) (j : Nat) (rest : List Val) :
    adaptArgs fnv j (Val.nil :: rest) =
      match inKind fnv j with
      | .error e => .error e
      | .ok k =>
          match adaptArgs fnv (j + 1) rest with
          | .error e => .error e
          | .ok tail => .ok ((if isRefKind k then some (zeroOfKind k) else none) :: tail) := rfl

theorem adaptArgs_cons_ne_nil (fnv : DVal) (j : Nat) (a : Val) (rest : List Val)
    (ha : a ≠ Val.nil) :
    adaptArgs fnv j (a :: rest) =
      match adaptArgs fnv (j + 1) rest with
      | .error e => .error e
      | .ok tail => .ok (some a :: tail) := by
  cases a <;> first
    | exact absurd rfl ha
    | rfl

theorem adaptArgs_no_nil (fnv : DVal) (j : Nat) (args : List Val)
    (h : Val.nil ∉ args) : adaptArgs fnv j args = .ok (args.map some) := by
  induction args generalizing j with
  | nil => rfl
  | cons a rest ih =>
      have ha : a ≠ Val.nil := fun hh => h (by simp [hh])
      have hr : Val.nil ∉ rest := fun hh => h (by simp [hh])
      rw [adaptArgs_cons_ne_nil fnv j a rest ha, ih (j + 1) hr]
      rfl

theorem adaptArgs_with_nil_nonfunc (v : Val) (j : Nat) (args : List Val)
    (h : Val.nil ∈ args) : adaptArgs (DVal.base v) j args = .error (.v .inNonFunc) := by
  induction args generalizing j with
  | nil => simp at h
  | cons a rest ih =>
      by_cases ha : a = Val.nil
      · subst ha; rfl
      · have hr : Val.nil ∈ rest := by
          rcases List.mem_cons.mp h with h' | h'
          · exact absurd h'.symm ha
          · exact h'
        rw [adaptArgs_cons_ne_nil _ j a rest ha, ih (j + 1) hr]

theorem sequenceValid_none (argvs : List (Option Val)) (i : Nat)
    (h : argvs[i]? = some none) : sequenceValid argvs = none := by
  induction argvs generalizing i with
  | nil => simp at h
  | cons a rest ih =>
      cases i with
      | zero =>
          simp at h
          subst h
          rfl
      | succ i' =>
          cases a with
          | none => rfl
          | some v =>
              simp at h
              simp [sequenceValid, ih i' h]

theorem adaptArgs_get (fnv : DVal) (j : Nat) (args : List Val)
    (argvs : List (Option Val)) (h : adaptArgs fnv j args = .ok argvs) (i : Nat) :
    (args[i]? = some Val.nil →
       ∃ k, inKind fnv (j + i) = .ok k ∧
         argvs[i]? = some (if isRefKind k then some (zeroOfKind k) else none)) ∧
    (∀ a, args[i]? = some a → a ≠ Val.nil → argvs[i]? = some (some a)) := by
  induction args generalizing j argvs i with
  | nil =>
      simp [adaptArgs] at h
      subst h
      simp
  | cons a rest ih =>
      by_cases ha : a = Val.nil
      · subst ha
        rw [adaptArgs_nil_cons] at h
        cases hk : inKind fnv j with
        | error e => rw [hk] at h; simp at h
        | ok k =>
            rw [hk] at h
            cases ht : adaptArgs fnv (j + 1) rest with
            | error e => rw [ht] at h; simp at h
            | ok tail =>
                rw [ht] at h
                simp at h
                subst h
                cases i with
                | zero =>
                    refine ⟨fun _ => ⟨k, by simpa using hk, by simp⟩, ?_⟩
                    intro a hsome hne
                    simp at hsome
                    exact absurd hsome.symm hne
                | succ i' =>
                    have hrec := ih (j + 1) tail ht i'
                    constructor
                    · intro hni
                      obtain ⟨k', hk', hv'⟩ := hrec.1 (by simpa using hni)
                      refine ⟨k', ?_, by simpa using hv'⟩
                      rw [show j + (i' + 1) = j + 1 + i' by omega]
                      exact hk'
                    · intro a hsome hne
                      simpa using hrec.2 a (by simpa using hsome) hne
      · rw [adaptArgs_cons_ne_nil fnv j a rest ha] at h
        cases ht : adaptArgs fnv (j + 1) rest with
        | error e => rw [ht] at h; simp at h
        | ok tail =>
            rw [ht] at h
            simp at h
            subst h
            cases i with
            | zero =>
                constructor
                · intro hni
                  simp at hni
                  exact absurd hni ha
                · intro a' hsome hne
                  simp at hsome
                  simp [hsome]
            | succ i' =>
                have hrec := ih (j + 1) tail ht i'
                constructor
                · intro hni
                  obtain ⟨k', hk', hv'⟩ := hrec.1 (by simpa using hni)
                  refine ⟨k', ?_, by simpa using hv'⟩
                  rw [show j + (i' + 1) = j + 1 + i' by omega]
                  exact hk'
                · intro a' hsome hne
                  simpa using hrec.2 a' (by simpa using hsome) hne

/-! Claim theorems. -/

/-- C1: for a plain Go function that Apply successfully invokes (argument
adaptation and the reflective call both succeed), zero return values yield
the no-value sentinel nil, exactly one return value is returned unchanged,
and two or more return values are returned as a Result Tuple of the same
length holding them in declaration order. -/
theorem apply_result_normalization (f : Func) (args : List Val)
    (argvs : List (Option Val)) (outs : List Val)
    (h1 : adaptArgs (DVal.fn f) 0 args = .ok argvs)
    (h2 : call (DVal.fn f) argvs = .ok outs) :
    (outs = [] → Apply (DVal.fn f) args = .ok .nil) ∧
    (∀ v, outs = [v] → Apply (DVal.fn f) args = .ok v) ∧
    (2 ≤ outs.length → Apply (DVal.fn f) args = .ok (.tuple outs)) := by
  have key : Apply (DVal.fn f) args = .ok (normalize outs) := by
    simp [Apply, isApplier, applyR, isNilD, kindD, h1, h2]
  refine ⟨fun h => ?_, fun v h => ?_, fun h => ?_⟩
  · subst h; simpa [normalize] using key
  · subst h; simpa [normalize] using key
  · match outs, h with
    | a :: b :: t, _ => simpa [normalize] using key

/-- The function x ↦ (x, x + 1) on Go ints. -/
def pairFn : Func := .mk [.int] (fun args =>
  match args with
  | [Val.int n] => .ok [Val.int n, Val.int (n + 1)]
  | _ => .error (.v .badTypeAssert))

/-- Witness for C1 at the spec's example f(x) = (x, x+1), applied to 10. -/
theorem apply_result_normalization_witness :
    Apply (DVal.fn pairFn) [Val.int 10] = .ok (.tuple [.int 10, .int 11]) :=
  (apply_result_normalization pairFn [Val.int 10] [some (Val.int 10)]
    [Val.int 10, Val.int 11] rfl rfl).2.2 (by simp)

/-- C2 (amended): for a non-Applier value of map, slice or struct kind and a
non-empty argument list, Apply returns the value component of the
reflection-based lookup of the first argument (arguments past the first
never influence the result); when the value moreover does not implement
Finder this equals the value component of Find. -/
theorem apply_container_lookup (t : DVal) (a : Val) (rest : List Val)
    (h1 : isApplier t = none)
    (h2 : kindD t = some .map ∨ kindD t = some .slice ∨ kindD t = some .struct) :
    Apply t (a :: rest) = (findReflectD t a).map Prod.fst ∧
    (isFinder t = none → Apply t (a :: rest) = (Find t a).map Prod.fst) := by
  have hnil : isNilD t = false := by
    cases t with
    | base v => cases v <;> simp_all [kindD, Val.kind, isNilD]
    | fn f => rfl
    | obj o => rfl
  have key : Apply t (a :: rest) = (findReflectD t a).map Prod.fst := by
    rcases h2 with h2 | h2 | h2 <;>
      · simp only [Apply, h1, applyR, hnil, h2, Bool.false_eq_true, if_false]
        cases findReflectD t a <;> simp [Except.map]
  refine ⟨key, fun hf => ?_⟩
  rw [key]
  simp [Find, hf]

/-- Witness for C2 at a plain map {1: 2} applied to (1, 77): the extra
argument 77 is ignored and the lookup value is returned. -/
theorem apply_container_lookup_witness :
    Apply (DVal.base (Val.map [(Val.int 1, Val.int 2)])) [Val.int 1, Val.int 77]
      = .ok (Val.int 2) := by
  have h := (apply_container_lookup (DVal.base (Val.map [(Val.int 1, Val.int 2)]))
    (Val.int 1) [Val.int 77] rfl (Or.inl rfl)).1
  simpa using h

/-- C2 counterexample: a map-kind value implementing Finder (but not
Applier).  Apply bypasses the Finder and performs the reflection lookup
(yielding 2), while Find delegates to the Finder (yielding 99), so Apply
does not return the value component of Find as the claim states. -/
def finderMap : DVal := DVal.obj (.mk (Val.map [(Val.int 1, Val.int 2)]) none
  (some (fun _ => (Val.int 99, true))) none none none [])

/-- C2 is false as stated: on `finderMap` (map kind, Finder, not Applier),
Apply returns the reflection-lookup value 2 while the value component of
Find is 99. -/
theorem apply_finder_map_cex :
    Apply finderMap [Val.int 1] = .ok (Val.int 2) ∧
    (Find finderMap (Val.int 1)).map Prod.fst = .ok (Val.int 99) ∧
    Apply finderMap [Val.int 1] ≠ (Find finderMap (Val.int 1)).map Prod.fst := by
  refine ⟨rfl, rfl, fun h => ?_⟩
  have h2 : (Except.ok (Val.int 2) : Res Val) = .ok (Val.int 99) := h
  simp at h2

/-- C3 (amended): for a non-nil receiver with no MessageReceiver
implementation and a message whose selector string names no method on the
receiver, Send panics with DoesNotUnderstand carrying exactly the receiver
and the full message; a receiver with a MessageReceiver implementation
instead has every message delegated to its Receive. -/
theorem send_dispatch (r : DVal) (name : String) (rest : List Val)
    (recvf : List Val → Val) :
    (isReceiver r = none → isNilD r = false → methodByName r name = none →
       Send r (Val.str name :: rest) =
         .error (.doesNotUnderstand r (Val.str name :: rest))) ∧
    (isReceiver r = some recvf → ∀ msg, Send r msg = .ok (recvf msg)) := by
  constructor
  · intro h1 h2 h3
    simp [Send, h1, h2, h3]
  · intro h msg
    simp [Send, h]

/-- Witness for C3: sending "foo" to the plain int 3 raises
DoesNotUnderstand with that receiver and message; an obj with a Receive
implementation gets the whole message delivered. -/
theorem send_dispatch_witness :
    Send (DVal.base (Val.int 3)) [Val.str "foo", Val.int 1] =
      .error (.doesNotUnderstand (DVal.base (Val.int 3)) [Val.str "foo", Val.int 1]) ∧
    Send (DVal.obj (.mk (Val.int 0) none none (some (fun msg => Val.slice msg)) none none []))
      [Val.str "m", Val.int 4] = .ok (Val.slice [Val.str "m", Val.int 4]) :=
  ⟨(send_dispatch (DVal.base (Val.int 3)) "foo" [Val.int 1] (fun _ => Val.nil)).1 rfl rfl rfl,
   (send_dispatch (DVal.obj (.mk (Val.int 0) none none (some (fun msg => Val.slice msg)) none none []))
      "m" [] (fun msg => Val.slice msg)).2 rfl [Val.str "m", Val.int 4]⟩

/-- C3 counterexample: with a nil receiver (which implements no
MessageReceiver and has no methods at all), Send panics inside reflect
with the invalid-Value panic, not with the DoesNotUnderstand condition the
claim promises for every receiver. -/
theorem send_nil_receiver_cex :
    Send (DVal.base Val.nil) [Val.str "foo"] = .error (.v .invalidValue) ∧
    (Except.error (.v .invalidValue) : Res Val) ≠
      .error (.doesNotUnderstand (DVal.base Val.nil) [Val.str "foo"]) := by
  refine ⟨rfl, fun h => ?_⟩
  simp at h

/-- C4 (amended): only a left-operand Equaler bypasses EqualNonComparable's
comparability short-circuit.  If the first operand implements Equaler the
result is its Equal applied to the other operand, whatever the kinds; if
the first operand is not an Equaler and the second is non-nil with a
non-comparable type, the result is false — even when the second operand
implements Equaler. -/
theorem equalNonComparable_precedence (a b : DVal) (e : Val → Bool) :
    (isEqualer a = some e → EqualNonComparable a b = .ok (e b.asArg)) ∧
    (isEqualer a = none → isNilD b = false → goComparableD b = false →
       EqualNonComparable a b = .ok false) := by
  constructor
  · intro h
    simp [EqualNonComparable, Equal, h]
  · intro h1 h2 h3
    simp [EqualNonComparable, h1, h2, h3]

/-- Witness for C4 (amended): a slice Equaler on the left wins over the
comparability check, while the non-comparable slice on the right
short-circuits to false even against an ordinary int. -/
theorem equalNonComparable_precedence_witness :
    EqualNonComparable
        (DVal.obj (.mk (Val.slice []) none none none (some (fun _ => true)) none []))
        (DVal.base (Val.int 1)) = .ok true ∧
    EqualNonComparable (DVal.base (Val.int 1)) (DVal.base (Val.slice [])) = .ok false :=
  ⟨(equalNonComparable_precedence
      (DVal.obj (.mk (Val.slice []) none none none (some (fun _ => true)) none []))
      (DVal.base (Val.int 1)) (fun _ => true)).1 rfl,
   (equalNonComparable_precedence (DVal.base (Val.int 1)) (DVal.base (Val.slice []))
      (fun _ => true)).2 rfl rfl rfl⟩

/-- A map-kind named type implementing Equaler with an Equal that always
answers true. -/
def mapEqualer : DVal :=
  DVal.obj (.mk (Val.map []) none none none (some (fun _ => true)) none [])

/-- C4 is false as stated: with a plain int on the left and the
non-comparable Equaler `mapEqualer` on the right, EqualNonComparable
returns false instead of the Equaler dispatch b.Equal(a) = true. -/
theorem equalNonComparable_right_equaler_cex :
    EqualNonComparable (DVal.base (Val.int 1)) mapEqualer = .ok false ∧
    Equal (DVal.base (Val.int 1)) mapEqualer = .ok true ∧
    EqualNonComparable (DVal.base (Val.int 1)) mapEqualer ≠
      Equal (DVal.base (Val.int 1)) mapEqualer := by
  refine ⟨rfl, rfl, fun h => ?_⟩
  have h2 : (Except.ok false : Res Bool) = .ok true := h
  simp at h2

/-- n levels of pointer wrapping. -/
def iterPtr : Nat → Val → Val
  | 0, v => v
  | n + 1, v => .ptr (iterPtr n v)

/-- C5 (amended): Find dereferences pointer wrappers one level at a time,
recursively: behind any number of pointer levels, a non-Finder value is
looked up with exactly the semantics of the unwrapped value, so a pointer
(of any depth) to a map, slice or struct resolves to that container's
lookup. -/
theorem find_ptr_deref_levels (n : Nat) (v sel : Val) :
    Find (DVal.base (iterPtr n v)) sel = liftE (findReflect v sel) := by
  have key : findReflect (iterPtr n v) sel = findReflect v sel := by
    induction n with
    | zero => rfl
    | succ m ih =>
        rw [iterPtr]
        rw [show findReflect (.ptr (iterPtr m v)) sel
          = findReflect (iterPtr m v) sel from rfl, ih]
  simp [Find, isFinder, findReflectD, key]

/-- C5 is false as stated: a slice behind two levels of pointer indirection
is transparently resolved — the lookup succeeds — where the claim says its
access is a contract violation. -/
theorem find_double_ptr_cex :
    Find (DVal.base (.ptr (.ptr (.slice [Val.int 7])))) (Val.int 0)
      = .ok (Val.int 7, true) := rfl

/-- C6 (amended): for a slice not implementing Finder and an int selector,
Find returns the element and true in bounds and (nil, false) out of
bounds, never a panic; whenever Find reports found = false, At returns the
value Find paired with the flag, without failing — which is nil for every
non-Finder container, while a custom Finder may report a non-nil value
with found = false, which At returns. -/
theorem find_slice_at_spec (xs : List Val) (i : Int) (o : DVal) (s w : Val) :
    (0 ≤ i → i < (xs.length : Int) →
       Find (DVal.base (.slice xs)) (.int i) = .ok (xs.getD i.toNat .nil, true)) ∧
    (i < 0 ∨ (xs.length : Int) ≤ i →
       Find (DVal.base (.slice xs)) (.int i) = .ok (.nil, false)) ∧
    (Find o s = .ok (w, false) → At o s = .ok w) ∧
    (isFinder o = none → Find o s = .ok (w, false) → w = Val.nil) := by
  refine ⟨fun h0 hl => ?_, fun h => ?_, fun h => ?_, fun hf h => ?_⟩
  · have hc : ¬(i < 0 ∨ (xs.length : Int) ≤ i) := by omega
    simp [Find, isFinder, findReflectD, findReflect, liftE, hc]
  · simp [Find, isFinder, findReflectD, findReflect, liftE, h]
  · simp [At, h]
  · rw [Find, hf] at h
    cases o with
    | base v =>
        simp only [findReflectD] at h
        cases hr : findReflect v s with
        | ok p =>
            rw [hr] at h
            simp [liftE] at h
            exact findReflect_false_nil v s w (by rw [hr, h])
        | error e => rw [hr] at h; simp [liftE] at h
    | obj ob =>
        simp only [findReflectD] at h
        cases hr : findReflect (Obj.payload ob) s with
        | ok p =>
            rw [hr] at h
            simp [liftE] at h
            exact findReflect_false_nil (Obj.payload ob) s w (by rw [hr, h])
        | error e => rw [hr] at h; simp [liftE] at h
    | fn f => simp [findReflectD] at h

/-- Witness for C6 at the spec's example: a three-element sequence with
selector 1 yields (element, true), selector 5 yields (nil, false), and At
of the not-found lookup yields nil. -/
theorem find_slice_at_spec_witness :
    Find (DVal.base (.slice [Val.int 10, Val.int 20, Val.int 30])) (Val.int 1)
      = .ok (Val.int 20, true) ∧
    Find (DVal.base (.slice [Val.int 10, Val.int 20, Val.int 30])) (Val.int 5)
      = .ok (Val.nil, false) ∧
    At (DVal.base (.slice [Val.int 10, Val.int 20, Val.int 30])) (Val.int 5)
      = .ok Val.nil := by
  have h1 := (find_slice_at_spec [Val.int 10, Val.int 20, Val.int 30] 1
    (DVal.base (.slice [Val.int 10, Val.int 20, Val.int 30])) (Val.int 5) Val.nil).1
    (by omega) (by simp)
  have h5 := find_slice_at_spec [Val.int 10, Val.int 20, Val.int 30] 5
    (DVal.base (.slice [Val.int 10, Val.int 20, Val.int 30])) (Val.int 5) Val.nil
  have hf := h5.2.1 (by simp)
  exact ⟨by simpa using h1, hf, h5.2.2.1 hf⟩

/-- A Finder whose Find reports found = false with the non-nil value 42. -/
def weirdFinder : DVal :=
  DVal.obj (.mk Val.nil none (some (fun _ => (Val.int 42, false))) none none none [])

/-- C6 is false as stated: a custom Finder can report found = false
together with a non-nil value, and At then returns that value, not the
absent-value representation nil. -/
theorem at_finder_not_found_cex :
    Find weirdFinder (Val.int 0) = .ok (Val.int 42, false) ∧
    At weirdFinder (Val.int 0) = .ok (Val.int 42) ∧
    At weirdFinder (Val.int 0) ≠ .ok Val.nil := by
  refine ⟨rfl, rfl, fun h => ?_⟩
  have h2 : (Except.ok (Val.int 42) : Res Val) = .ok Val.nil := h
  simp at h2

theorem adaptArgs_length (fnv : DVal) (j : Nat) (args : List Val)
    (argvs : List (Option Val)) (h : adaptArgs fnv j args = .ok argvs) :
    argvs.length = args.length := by
  induction args generalizing j argvs with
  | nil =>
      simp [adaptArgs] at h
      subst h
      rfl
  | cons a rest ih =>
      by_cases ha : a = Val.nil
      · subst ha
        rw [adaptArgs_nil_cons] at h
        cases hk : inKind fnv j with
        | error e => rw [hk] at h; simp at h
        | ok k =>
            rw [hk] at h
            cases ht : adaptArgs fnv (j + 1) rest with
            | error e => rw [ht] at h; simp at h
            | ok tail =>
                rw [ht] at h
                simp at h
                subst h
                simp [ih (j + 1) tail ht]
      · rw [adaptArgs_cons_ne_nil fnv j a rest ha] at h
        cases ht : adaptArgs fnv (j + 1) rest with
        | error e => rw [ht] at h; simp at h
        | ok tail =>
            rw [ht] at h
            simp at h
            subst h
            simp [ih (j + 1) tail ht]

/-- C7: when Apply invokes a plain Go function and the supplied argument at
some position is the no-value sentinel nil, a reference-like formal
parameter kind (chan, func, interface, map, pointer, slice) receives that
kind's zero value in the adapted argument vector, while any other (plain
scalar) parameter kind keeps the sentinel — the invalid reflect.Value —
which makes the underlying Call fail. -/
theorem apply_nil_arg_adaptation (f : Func) (args : List Val) (i : Nat) (k : GoKind)
    (hai : args[i]? = some Val.nil) (hpi : (Func.params f)[i]? = some k) :
    ∀ argvs, adaptArgs (DVal.fn f) 0 args = .ok argvs →
      (isRefKind k = true → argvs[i]? = some (some (zeroOfKind k))) ∧
      (isRefKind k = false → argvs[i]? = some none ∧
         (args.length = (Func.params f).length →
           Apply (DVal.fn f) args = .error (.v .zeroValueArg))) := by
  intro argvs hok
  obtain ⟨k', hk', hv⟩ := (adaptArgs_get (DVal.fn f) 0 args argvs hok i).1 hai
  have hk2 : inKind (DVal.fn f) i = .ok k' := by simpa using hk'
  have hkk : k' = k := by
    simp [inKind, hpi] at hk2
    exact hk2.symm
  subst hkk
  constructor
  · intro htrue
    rw [hv, htrue]
    simp
  · intro hfalse
    rw [hv, hfalse]
    refine ⟨by simp, fun hlen => ?_⟩
    have hv' : argvs[i]? = some none := by rw [hv, hfalse]; simp
    have hsv : sequenceValid argvs = none := sequenceValid_none argvs i hv'
    have hlenv : argvs.length = (Func.params f).length := by
      rw [adaptArgs_length _ _ _ _ hok]
      exact hlen
    have hcall : call (DVal.fn f) argvs = .error (.v .zeroValueArg) := by
      simp [call, hlenv, hsv]
    simp [Apply, isApplier, applyR, isNilD, kindD, hok, hcall]

/-- A function of one map-kind and one int-kind parameter, returning its
second argument. -/
def mixedFn : Func := .mk [.map, .int] (fun args => .ok [args.getD 1 .nil])

/-- Witness for C7 on a (map, int) parameter list with both arguments nil:
the map-kind position receives the zero (nil) map, the int-kind position
keeps the invalid sentinel, and the call fails with the zero-Value panic. -/
theorem apply_nil_arg_adaptation_witness :
    Apply (DVal.fn mixedFn) [Val.nil, Val.nil] = .error (.v .zeroValueArg) ∧
    adaptArgs (DVal.fn mixedFn) 0 [Val.nil, Val.nil] = .ok [some (Val.map []), none] := by
  have h0 := apply_nil_arg_adaptation mixedFn [Val.nil, Val.nil] 0 GoKind.map rfl rfl
    [some (Val.map []), none] rfl
  have h1 := apply_nil_arg_adaptation mixedFn [Val.nil, Val.nil] 1 GoKind.int rfl rfl
    [some (Val.map []), none] rfl
  exact ⟨((h1.2 rfl).2 rfl), rfl⟩

theorem wrapOne (r : Res Val) :
    (match (match r with
            | .ok rr => (Except.ok [rr] : Res (List Val))
            | .error e => .error e) with
     | .ok outs => (Except.ok (normalize outs) : Res Val)
     | .error e => .error e) = r := by
  cases r <;> simp [normalize]

theorem apply_iface1 (body : List Val → Res (List Val)) (x : Val) :
    Apply (DVal.fn (.mk [.iface] body)) [x] =
      match body [x] with
      | .ok outs => .ok (normalize outs)
      | .error e => .error e := by
  have hx : adaptArgs (DVal.fn (.mk [.iface] body)) 0 [x] = .ok [some x] := by
    cases x <;> rfl
  simp only [Apply, isApplier, applyR, isNilD, kindD, Val.kind, hx, call, Func.params,
    Func.body, sequenceValid, List.length_cons, List.length_nil]
  cases body [x] <;> simp

/-- The negation function on Go ints. -/
def negateFn : DVal := .fn (.mk [.int] (fun args =>
  match args with
  | [Val.int n] => .ok [Val.int (-n)]
  | _ => .error (.v .badTypeAssert)))

/-- The squaring function on Go ints. -/
def squareFn : DVal := .fn (.mk [.int] (fun args =>
  match args with
  | [Val.int n] => .ok [Val.int (n * n)]
  | _ => .error (.v .badTypeAssert)))

/-- C8: applying the composition of f1 :: rest to x applies the
composition of rest to x and then applies f1 to the result, spreading the
result's elements as the positional arguments when it is a Result Tuple
and passing it as the single argument otherwise; composing zero functions
yields the identity; in particular Compose(negate, square) applied to 5
yields -25 (outermost first). -/
theorem compose_spec (f : DVal) (rest : List DVal) (x : Val) :
    (Apply (Compose (f :: rest)) [x] =
       match Apply (Compose rest) [x] with
       | .ok (.tuple elems) => Apply f elems
       | .ok v => Apply f [v]
       | .error e => .error e) ∧
    Apply (Compose []) [x] = .ok x ∧
    Apply (Compose [negateFn, squareFn]) [Val.int 5] = .ok (.int (-25)) := by
  refine ⟨?_, ?_, rfl⟩
  · have hb : Apply (Compose (f :: rest)) [x] =
        match (fun args =>
          match Apply (Compose rest) [List.headD args .nil] with
          | .error e => (Except.error e : Res (List Val))
          | .ok newArg =>
              match newArg with
              | .tuple elems =>
                  (match Apply f elems with
                   | .ok r => (Except.ok [r] : Res (List Val))
                   | .error e => .error e)
              | v =>
                  (match Apply f [v] with
                   | .ok r => (Except.ok [r] : Res (List Val))
                   | .error e => .error e)) [x] with
        | .ok outs => .ok (normalize outs)
        | .error e => .error e :=
      apply_iface1 _ x
    rw [hb]
    simp only [List.headD_cons]
    cases hA : Apply (Compose rest) [x] with
    | error e => simp [hA]
    | ok newArg =>
        cases newArg with
        | tuple elems => simp only [hA]; exact wrapOne (Apply f elems)
        | nil => simp only [hA]; exact wrapOne (Apply f [Val.nil])
        | int n => simp only [hA]; exact wrapOne (Apply f [Val.int n])
        | str s => simp only [hA]; exact wrapOne (Apply f [Val.str s])
        | bool b => simp only [hA]; exact wrapOne (Apply f [Val.bool b])
        | slice xs => simp only [hA]; exact wrapOne (Apply f [Val.slice xs])
        | map kvs => simp only [hA]; exact wrapOne (Apply f [Val.map kvs])
        | struct fs => simp only [hA]; exact wrapOne (Apply f [Val.struct fs])
        | ptr p => simp only [hA]; exact wrapOne (Apply f [Val.ptr p])
  · have hb : Apply (Compose []) [x] =
        match (fun args => (Except.ok [List.headD args .nil] : Res (List Val))) [x] with
        | .ok outs => .ok (normalize outs)
        | .error e => .error e :=
      apply_iface1 _ x
    rw [hb]
    simp [normalize]

/-- C9: values that Go's `==` reports equal compare as 0; the nil interface
value compares strictly below any non-nil value and strictly above none,
and nil versus nil is already resolved to 0 by that preceding equality
check. -/
theorem compare_nil_ordering (a b v : DVal) :
    (goEq a b = .ok true → Compare a b = .ok 0) ∧
    (isNilD v = false →
       Compare (DVal.base Val.nil) v = .ok (-1) ∧
       Compare v (DVal.base Val.nil) = .ok 1) ∧
    Compare (DVal.base Val.nil) (DVal.base Val.nil) = .ok 0 := by
  refine ⟨fun h => by simp [Compare, h], fun h => ⟨?_, ?_⟩, rfl⟩
  · have hg : goEq (DVal.base Val.nil) v = .ok false := by
      cases v with
      | base w => cases w <;> simp_all [isNilD, goEq]
      | fn f => rfl
      | obj o => rfl
    simp [Compare, hg, show isNilD (DVal.base Val.nil) = true from rfl]
  · have hg : goEq v (DVal.base Val.nil) = .ok false := by
      cases v with
      | base w => cases w <;> simp_all [isNilD, goEq]
      | fn f => rfl
      | obj o => rfl
    simp [Compare, hg, h, show isNilD (DVal.base Val.nil) = true from rfl]

/-- Witness for C9: equal ints compare as 0, and nil sorts below / above
the non-nil int 3. -/
theorem compare_nil_ordering_witness :
    Compare (DVal.base (Val.int 7)) (DVal.base (Val.int 7)) = .ok 0 ∧
    Compare (DVal.base Val.nil) (DVal.base (Val.int 3)) = .ok (-1) ∧
    Compare (DVal.base (Val.int 3)) (DVal.base Val.nil) = .ok 1 := by
  have h := compare_nil_ordering (DVal.base (Val.int 7)) (DVal.base (Val.int 7))
    (DVal.base (Val.int 3))
  exact ⟨h.1 rfl, (h.2.1 rfl).1, (h.2.1 rfl).2⟩

/-- C10: Apply never dereferences a pointer wrapper: a non-Applier pointer
value — whatever it points to — skips the container-lookup path and falls
through to the reflective function-call path, which panics: in the
argument-adaptation loop (reflect.Type.In on a non-func type) when some
argument is nil, and at Call (call of non-func) otherwise. -/
theorem apply_ptr_no_container_path (v : Val) (args : List Val) :
    (Val.nil ∈ args → Apply (DVal.base (.ptr v)) args = .error (.v .inNonFunc)) ∧
    (Val.nil ∉ args → Apply (DVal.base (.ptr v)) args = .error (.v .callNonFunc)) := by
  constructor
  · intro h
    simp [Apply, isApplier, applyR, isNilD, kindD, Val.kind,
      adaptArgs_with_nil_nonfunc (Val.ptr v) 0 args h]
  · intro h
    simp [Apply, isApplier, applyR, isNilD, kindD, Val.kind,
      adaptArgs_no_nil (DVal.base (.ptr v)) 0 args h, call]

/-- Witness for C10: applying a pointer to a populated map does not look
the key up — Find through the pointer succeeds while Apply panics at
Call. -/
theorem apply_ptr_no_container_path_witness :
    Apply (DVal.base (.ptr (Val.map [(Val.int 0, Val.int 5)]))) [Val.int 0]
      = .error (.v .callNonFunc) ∧
    Apply (DVal.base (.ptr (Val.map [(Val.int 0, Val.int 5)]))) [Val.nil]
      = .error (.v .inNonFunc) :=
  ⟨(apply_ptr_no_container_path (Val.map [(Val.int 0, Val.int 5)]) [Val.int 0]).2
      (by simp),
   (apply_ptr_no_container_path (Val.map [(Val.int 0, Val.int 5)]) [Val.nil]).1
      (by simp)⟩

end Dyn
